import Mathlib

/-!
Formal model of the `cs4246-blackjack` environment: `game/api.py`
(`BlackjackWrapper`), `game/models/player.py` (`Player`) and
`game/models/model.py` (`GameState`, `ActionOutcome`).  The repository's
`game/models/constant.py` (the `Card` ranks) and `game/models/deck.py`
(the `Deck`) are not among the sources; those two leaves are modelled
from the spec where marked.  Hands and the discard pile are Python
`Counter` objects, modelled as functions `Card → Nat`; the shoe is
modelled as the list of its cards in draw order, a draw taking the front
card.  Python `int` cash amounts are `Int`, the `float` bet fraction is
`ℚ`, and the `int(...)` truncation of cash-times-bet products is
`pyIntMul` / `pyIntMul2`.
-/

namespace Blackjack

/-- Modelled from the spec: `game/models/constant.py` is absent.  The 13
ranks, 2–10 plus jack, queen, king and ace (spec §2, §3). -/
inductive Card
  | c2 | c3 | c4 | c5 | c6 | c7 | c8 | c9 | c10
  | jack | queen | king | ace
deriving DecidableEq, Fintype

/-- All 13 ranks in rank order (the deterministic iteration order of the
rank→count maps, spec §6 and §9). -/
def Card.all : List Card :=
  [.c2, .c3, .c4, .c5, .c6, .c7, .c8, .c9, .c10, .jack, .queen, .king, .ace]

/-- Modelled from the spec: the numeric value a rank contributes through
`hand_value += card * count` in `Player.get_hand_value` — 2–10 at face
value and ace 1 (spec §2: ace is 1 or 11, the extra 10 being added by the
promotion loop).  Jack, queen and king are routed through the explicit
ten-valued branch of the valuation, so their numeric value is never read
there; the spec gives them value 10 (§2). -/
def Card.val : Card → Nat
  | .c2 => 2 | .c3 => 3 | .c4 => 4 | .c5 => 5 | .c6 => 6
  | .c7 => 7 | .c8 => 8 | .c9 => 9 | .c10 => 10
  | .jack => 10 | .queen => 10 | .king => 10
  | .ace => 1

/-- A hand, discard pile or any other `Counter[Card]`: the count stored
for each rank. -/
abbrev Hand := Card → Nat

/-- Python `Counter()`. -/
def Hand.empty : Hand := fun _ => 0

/-- Python `hand[card] += 1`. -/
def Hand.add (h : Hand) (c : Card) : Hand :=
  fun x => if x = c then h x + 1 else h x

/-- Python `sum(hand.values())` — the number of cards in the hand. -/
def Hand.total (h : Hand) : Nat := (Card.all.map h).sum

/-- Python `len(hand)` on a `Counter`: the number of stored keys.  Keys of
these counters are only ever incremented (and hands are replaced by fresh
`Counter()`s on reset), so a key is stored exactly when its count is
positive: `len` is the number of distinct ranks present. -/
def Hand.pyLen (h : Hand) : Nat :=
  (Card.all.filter (fun c => h c != 0)).length

/-- Convenience: the hand holding exactly the cards of a list. -/
def mkHand (l : List Card) : Hand := fun c => l.count c

/-- Summation loop of `Player.get_hand_value` (both the ace-free branch
and the general branch run the identical loop): jack, queen and king add
`10 * count`, every other rank adds `card * count`. -/
def Hand.baseSum (h : Hand) : Nat :=
  (Card.all.map (fun c =>
    if c = Card.jack ∨ c = Card.queen ∨ c = Card.king then 10 * h c
    else Card.val c * h c)).sum

/-- Ace-promotion loop of `Player.get_hand_value`:
`for i in range(hand[ace]): if hand_value + 10 <= 21: hand_value += 10`. -/
def promote : Nat → Nat → Nat
  | v, 0 => v
  | v, k + 1 => promote (if v + 10 ≤ 21 then v + 10 else v) k

/-- Hand valuation, `Player.get_hand_value`: if no ace is present, the
plain sum; else the two-card special cases (two aces, or one ace with one
ten-valued card, each worth 21), else the sum with greedy ace
promotion. -/
def handValue (h : Hand) : Nat :=
  if h Card.ace = 0 then h.baseSum
  else if h.total = 2 ∧ h Card.ace = 2 then 21
  else if h.total = 2 ∧ h Card.ace = 1 ∧
      (h Card.jack = 1 ∨ h Card.queen = 1 ∨ h Card.king = 1 ∨ h Card.c10 = 1) then 21
  else promote h.baseSum (h Card.ace)

/-- Entity of `game/models/player.py`: the hand plus the first card drawn
(the latter only feeds the dealer's showing value). -/
structure Player where
  first_card : Option Card
  hand : Hand
deriving DecidableEq

/-- Python `Player.__init__`. -/
def Player.init : Player := { first_card := none, hand := Hand.empty }

/-- Python `Player.get_hand_value`. -/
def Player.get_hand_value (p : Player) : Nat := handValue p.hand

/-- Effect of `Player.draw` on the player once the deck has yielded a
card: add it to the hand and record it as first card if none is set. -/
def Player.addCard (p : Player) (c : Card) : Player :=
  { first_card := match p.first_card with | none => some c | some x => some x
    hand := p.hand.add c }

/-- Python `Player.draw(deck)`.  The deck side is modelled from the spec
(`game/models/deck.py` is absent): the shoe is its list of cards in draw
order, `draw` removes the front card and fails with `DeckExhausted`
(modelled as `none`) when no cards remain (spec §4.1, §7). -/
def Player.draw (p : Player) (deck : List Card) : Option (Player × List Card) :=
  match deck with
  | [] => none
  | c :: rest => some (p.addCard c, rest)

/-- Python `Player.reset_hand`: the old hand is handed back as discard
and replaced by a fresh empty one (`first_card` is left as is, exactly as
in the source). -/
def Player.reset_hand (p : Player) : Hand × Player :=
  (p.hand, { p with hand := Hand.empty })

-- Scratch checks of the valuation on the spec's examples.
example : handValue (mkHand [Card.ace, Card.ace]) = 21 := by decide
example : handValue (mkHand [Card.ace, Card.king]) = 21 := by decide
example : handValue (mkHand [Card.ace, Card.ace, Card.c9]) = 21 := by decide
example : handValue (mkHand [Card.c10, Card.c10, Card.c5]) = 25 := by decide
example : handValue (mkHand [Card.ace, Card.c5]) = 16 := by decide
example : handValue (mkHand [Card.ace, Card.c5, Card.king]) = 16 := by decide
example : (mkHand [Card.ace, Card.ace]).pyLen = 1 := by decide
example : (mkHand [Card.ace, Card.c10, Card.c10]).pyLen = 2 := by decide

/-- Turn marker of `game/models/constant.py` (absent; modelled from the
spec §3: a participant is the player or the dealer). -/
inductive PlayerType
  | player | dealer
deriving DecidableEq

/-- Snapshot object of `game/models/model.py` (`GameState`).  The
`bet_percent` field is `Optional[float]` in the source; the wrapper
initialises it to `0` and never stores `None`, so it is a plain `ℚ`
here. -/
structure GameState where
  deck_nums : Nat
  initial_cash : Int
  turn : PlayerType
  hand : Hand
  discarded : Hand
  bet_percent : ℚ
  remaining_cash : Int
deriving DecidableEq

/-- Outcome object of `game/models/model.py` (`ActionOutcome`).  The
`reward` field is typed `float` in the source but every value assigned to
it is an integer cash amount, so it is `Int` here. -/
structure ActionOutcome where
  new_state : GameState
  reward : Int
  terminated : Bool
deriving DecidableEq

/-- Session state of `BlackjackWrapper` in `game/api.py`.  The shoe is
the list of its cards in draw order (modelled from the spec, `deck.py`
being absent); `get_remaining_cards()` is its length. -/
structure Wrapper where
  initial_cash : Int
  max_attained_cash : Int
  remaining_cash : Int
  player_bet_percent : ℚ
  deck_nums : Nat
  dealer : Player
  player : Player
  deck : List Card
  discarded : Hand
  turn : PlayerType
deriving DecidableEq

/-- Python `int(self.remaining_cash * self.player_bet_percent)`: the
exact product of the integer cash amount with the rational bet fraction,
truncated toward zero as `int()` does.  For a reduced rational `q` the
product `n * q` is the rational `n * q.num / q.den`, and truncating it
toward zero is truncating integer division.  `pyIntMul_eq_floor` below
checks this against the mathematical floor for the non-negative operands
the payout formulas use. -/
def pyIntMul (n : Int) (q : ℚ) : Int := (n * q.num).tdiv (q.den : Int)

/-- Python `int(self.remaining_cash * self.player_bet_percent * 2)` of
the natural-blackjack payout, truncated toward zero likewise. -/
def pyIntMul2 (n : Int) (q : ℚ) : Int := (n * q.num * 2).tdiv (q.den : Int)

lemma intCast_mul_rat_eq (n : Int) (q : ℚ) :
    (n : ℚ) * q = ((n * q.num : Int) : ℚ) / ((q.den : ℕ) : ℚ) := by
  have hden : ((q.den : ℕ) : ℚ) ≠ 0 := by exact_mod_cast q.den_nz
  have hq : q * ((q.den : ℕ) : ℚ) = ((q.num : Int) : ℚ) := by
    calc q * ((q.den : ℕ) : ℚ)
        = ((q.num : Int) : ℚ) / ((q.den : ℕ) : ℚ) * ((q.den : ℕ) : ℚ) := by
          rw [Rat.num_div_den]
      _ = ((q.num : Int) : ℚ) := div_mul_cancel₀ _ hden
  rw [eq_div_iff hden]
  push_cast
  push_cast at hq
  rw [mul_assoc, hq]

/-- Sanity bridge: on the non-negative operands the payout formulas use,
the truncation `pyIntMul` is exactly the floor of the exact product, as
the spec words it. -/
lemma pyIntMul_eq_floor (n : Int) (q : ℚ) (hn : 0 ≤ n) (hq : 0 ≤ q) :
    pyIntMul n q = ⌊(n : ℚ) * q⌋ := by
  rw [intCast_mul_rat_eq, Rat.floor_intCast_div_natCast, pyIntMul]
  exact Int.tdiv_eq_ediv (mul_nonneg hn (Rat.num_nonneg.mpr hq)) (by positivity)

/-- Sanity bridge for the doubled natural-blackjack payout. -/
lemma pyIntMul2_eq_floor (n : Int) (q : ℚ) (hn : 0 ≤ n) (hq : 0 ≤ q) :
    pyIntMul2 n q = ⌊(n : ℚ) * q * 2⌋ := by
  have h2 : (n : ℚ) * q * 2 = ((n * 2 : Int) : ℚ) * q := by push_cast; ring
  rw [h2, intCast_mul_rat_eq, Rat.floor_intCast_div_natCast, pyIntMul2]
  rw [show n * 2 * q.num = n * q.num * 2 by ring]
  exact Int.tdiv_eq_ediv
    (by have := mul_nonneg hn (Rat.num_nonneg.mpr hq); positivity)
    (by positivity)

/-- Modelled from the spec: a fresh shoe holds `deck_nums` full 52-card
decks, four cards of each of the 13 ranks per deck (spec §3, §4.1). -/
def freshDeck (n : Nat) : List Card :=
  Card.all.flatMap (fun c => List.replicate (4 * n) c)

/-- Python `BlackjackWrapper.get_state`: a snapshot of the player-facing
fields. -/
def get_state (w : Wrapper) : GameState :=
  { deck_nums := w.deck_nums
    initial_cash := w.initial_cash
    turn := w.turn
    hand := w.player.hand
    discarded := w.discarded
    bet_percent := w.player_bet_percent
    remaining_cash := w.remaining_cash }

/-- Python `BlackjackWrapper.__init__`.  `shuffle` is the permutation the
shoe's shuffle applies to the draw order of the fresh deck (spec §4.1:
shuffling reorders draws, never counts). -/
def initWrapper (initial_cash : Int) (deck_nums : Nat)
    (shuffle : List Card → List Card) : Wrapper :=
  { initial_cash := initial_cash
    max_attained_cash := initial_cash
    remaining_cash := initial_cash
    player_bet_percent := 0
    deck_nums := deck_nums
    dealer := Player.init
    player := Player.init
    deck := shuffle (freshDeck deck_nums)
    discarded := Hand.empty
    turn := PlayerType.player }

/-- Python `BlackjackWrapper.reset`, with `shuffle` the permutation the
final `deck.shuffle()` applies: on an insolvent session a brand-new
wrapper; otherwise both hands drain into the discard pile, then the shoe
is replaced by a fresh one (and the discard pile emptied) when fewer than
`deck_nums * 52 / 2` cards remain, and finally the shoe is shuffled and
the bet cleared. -/
def reset (w : Wrapper) (shuffle : List Card → List Card) : Wrapper :=
  if w.remaining_cash ≤ 0 then initWrapper w.initial_cash w.deck_nums shuffle
  else
    let dealerDrop := w.dealer.reset_hand
    let playerDrop := w.player.reset_hand
    let disc : Hand := fun c => w.discarded c + dealerDrop.1 c + playerDrop.1 c
    let w1 : Wrapper :=
      { w with dealer := dealerDrop.2, player := playerDrop.2, discarded := disc }
    let w2 : Wrapper :=
      if w1.deck.length < w1.deck_nums * Card.all.length * 4 / 2 then
        { w1 with discarded := Hand.empty, deck := freshDeck w1.deck_nums }
      else w1
    { w2 with deck := shuffle w2.deck
              player_bet_percent := 0
              turn := PlayerType.player }

/-- Python `BlackjackWrapper.bet_step`: record the bet fraction, deal
player–dealer–player–dealer, then resolve an immediate push (both 21),
an immediate dealer-natural loss (dealer 21 only), or return the
non-terminal snapshot.  `none` models the `DeckExhausted` failure of an
exhausted shoe. -/
def bet_step (w : Wrapper) (bet_percent : ℚ) : Option (Wrapper × ActionOutcome) :=
  let w0 : Wrapper := { w with player_bet_percent := bet_percent }
  match w0.player.draw w0.deck with
  | none => none
  | some (p1, k1) =>
  match w0.dealer.draw k1 with
  | none => none
  | some (d1, k2) =>
  match p1.draw k2 with
  | none => none
  | some (p2, k3) =>
  match d1.draw k3 with
  | none => none
  | some (d2, k4) =>
    let w1 : Wrapper := { w0 with player := p2, dealer := d2, deck := k4 }
    if p2.get_hand_value = 21 ∧ d2.get_hand_value = 21 then
      some (w1, { new_state := get_state w1, reward := 0, terminated := true })
    else if d2.get_hand_value = 21 then
      let loss := max (pyIntMul w1.remaining_cash w1.player_bet_percent) 1
      let w2 : Wrapper := { w1 with remaining_cash := w1.remaining_cash - loss }
      let r : Int := if 0 < w2.remaining_cash then -loss else -w2.max_attained_cash
      some (w2, { new_state := get_state w2, reward := r, terminated := true })
    else
      some (w1, { new_state := get_state w1, reward := 0, terminated := false })

/-- Dealer drawing loop inside the stand branch of `card_step`:
`while self.dealer.get_hand_value() < 17: self.dealer.draw(self.deck)`.
Structured on the deck so that exhausting the shoe while still under 17
is the `DeckExhausted` failure (`none`). -/
def dealerLoop (d : Player) (deck : List Card) : Option (Player × List Card) :=
  match deck with
  | [] => if d.get_hand_value < 17 then none else some (d, [])
  | c :: rest =>
    if d.get_hand_value < 17 then dealerLoop (d.addCard c) rest
    else some (d, c :: rest)

/-- Python `BlackjackWrapper.card_step`.  Hitting draws one card and
resolves a bust; standing pays the branch the source guards with
`player_score == 21 and len(self.player.hand) == 2`, and otherwise runs
the dealer loop and compares totals. -/
def card_step (w : Wrapper) (take_card : Bool) : Option (Wrapper × ActionOutcome) :=
  if take_card then
    match w.player.draw w.deck with
    | none => none
    | some (p1, k1) =>
      let w1 : Wrapper := { w with player := p1, deck := k1 }
      if 21 < p1.get_hand_value then
        let loss := max (pyIntMul w1.remaining_cash w1.player_bet_percent) 1
        let w2 : Wrapper := { w1 with remaining_cash := w1.remaining_cash - loss }
        let r : Int := if 0 < w2.remaining_cash then -loss else -w2.max_attained_cash
        some (w2, { new_state := get_state w2, reward := r, terminated := true })
      else
        some (w1, { new_state := get_state w1, reward := 0, terminated := false })
  else
    let player_score := w.player.get_hand_value
    if player_score = 21 ∧ w.player.hand.pyLen = 2 then
      let win := pyIntMul2 w.remaining_cash w.player_bet_percent
      let w1 : Wrapper := { w with remaining_cash := w.remaining_cash + win }
      let w2 : Wrapper :=
        { w1 with max_attained_cash := max w1.max_attained_cash w1.remaining_cash }
      some (w2, { new_state := get_state w2, reward := win, terminated := true })
    else
      match dealerLoop w.dealer w.deck with
      | none => none
      | some (d1, k1) =>
        let w1 : Wrapper := { w with dealer := d1, deck := k1 }
        let dealer_score := d1.get_hand_value
        if 21 < dealer_score then
          let win := pyIntMul w1.remaining_cash w1.player_bet_percent
          let w2 : Wrapper := { w1 with remaining_cash := w1.remaining_cash + win }
          let w3 : Wrapper :=
            { w2 with max_attained_cash := max w2.max_attained_cash w2.remaining_cash }
          some (w3, { new_state := get_state w3, reward := win, terminated := true })
        else if player_score < dealer_score then
          let loss := max (pyIntMul w1.remaining_cash w1.player_bet_percent) 1
          let w2 : Wrapper := { w1 with remaining_cash := w1.remaining_cash - loss }
          let r : Int := if 0 < w2.remaining_cash then -loss else -w2.max_attained_cash
          some (w2, { new_state := get_state w2, reward := r, terminated := true })
        else if dealer_score = player_score then
          some (w1, { new_state := get_state w1, reward := 0, terminated := true })
        else
          let win := pyIntMul w1.remaining_cash w1.player_bet_percent
          let w2 : Wrapper := { w1 with remaining_cash := w1.remaining_cash + win }
          let w3 : Wrapper :=
            { w2 with max_attained_cash := max w2.max_attained_cash w2.remaining_cash }
          some (w3, { new_state := get_state w3, reward := win, terminated := true })

/-! Helper lemmas about the valuation and the dealer loop. -/

lemma le_promote (k v : Nat) : v ≤ promote v k := by
  induction k generalizing v with
  | zero => exact Nat.le_refl v
  | succ k ih =>
    refine Nat.le_trans ?_ (ih (if v + 10 ≤ 21 then v + 10 else v))
    split <;> omega

lemma baseSum_le_ten_total (h : Hand) : h.baseSum ≤ 10 * h.total := by
  simp [Hand.baseSum, Hand.total, Card.all, Card.val]
  omega

lemma baseSum_le_handValue (h : Hand) : h.baseSum ≤ handValue h := by
  have h10 := baseSum_le_ten_total h
  unfold handValue
  split_ifs with h1 h2 h3
  · exact Nat.le_refl _
  · obtain ⟨ht, _⟩ := h2
    omega
  · obtain ⟨ht, _⟩ := h3
    omega
  · exact le_promote _ _

lemma baseSum_add (h : Hand) (c : Card) :
    h.baseSum + 1 ≤ (h.add c).baseSum := by
  cases c <;> simp [Hand.add, Hand.baseSum, Card.all, Card.val] <;> omega

lemma total_add (h : Hand) (c : Card) : (h.add c).total = h.total + 1 := by
  cases c <;> simp [Hand.add, Hand.total, Card.all] <;> omega

lemma dealerLoop_of_ge17 (d : Player) (deck : List Card)
    (hv : 17 ≤ d.get_hand_value) : dealerLoop d deck = some (d, deck) := by
  cases deck <;> simp [dealerLoop, Nat.not_lt.mpr hv]

lemma dealerLoop_result_ge17 (deck : List Card) (d : Player)
    (r : Player × List Card) (h : dealerLoop d deck = some r) :
    17 ≤ r.1.get_hand_value := by
  induction deck generalizing d with
  | nil =>
    by_cases hv : d.get_hand_value < 17
    · simp [dealerLoop, hv] at h
    · simp [dealerLoop, hv] at h
      rw [← h]
      exact Nat.not_lt.mp hv
  | cons c rest ih =>
    by_cases hv : d.get_hand_value < 17
    · simp only [dealerLoop, if_pos hv] at h
      exact ih _ h
    · simp [dealerLoop, hv] at h
      rw [← h]
      exact Nat.not_lt.mp hv

lemma dealerLoop_isSome (deck : List Card) (d : Player)
    (hfuel : 17 ≤ d.hand.baseSum + deck.length) :
    (dealerLoop d deck).isSome = true := by
  induction deck generalizing d with
  | nil =>
    have hb := baseSum_le_handValue d.hand
    have hnv : ¬ (d.get_hand_value < 17) := by
      unfold Player.get_hand_value
      simp at hfuel
      omega
    simp [dealerLoop, hnv]
  | cons c rest ih =>
    by_cases hv : d.get_hand_value < 17
    · simp only [dealerLoop, if_pos hv]
      apply ih
      have hstep := baseSum_add d.hand c
      have hh : (d.addCard c).hand = d.hand.add c := rfl
      rw [hh]
      simp at hfuel
      omega
    · simp [dealerLoop, hv]

/-! Spec-side mirror of the hand valuation, written from the words of
spec §4.2 alone, to be compared with `handValue` (which is translated
from `Player.get_hand_value`). -/

/-- Face value of a rank as the spec words it: 2–10 at face value,
ten-valued court cards count 10, an ace counts 1 before promotion
(spec §2, §4.2 case 3). -/
def specFace : Card → Nat
  | .c2 => 2 | .c3 => 3 | .c4 => 4 | .c5 => 5 | .c6 => 6
  | .c7 => 7 | .c8 => 8 | .c9 => 9 | .c10 => 10
  | .jack => 10 | .queen => 10 | .king => 10
  | .ace => 1

/-- Per-ace greedy promotion as the spec words it: for each ace in turn,
add 10 to the running total only if doing so keeps it at most 21,
otherwise leave the total unchanged for that ace (spec §4.2 case 3). -/
def specPromote : Nat → Nat → Nat
  | v, 0 => v
  | v, k + 1 =>
    if v + 10 ≤ 21 then specPromote (v + 10) k else specPromote v k

/-- Hand valuation as spec §4.2 states it: a two-card double-ace hand or
a two-card ace-plus-ten-valued hand is 21 (natural); otherwise the cards
are summed at face value with each ace at 1 and then promoted greedily. -/
def specHandValue (h : Hand) : Nat :=
  if h.total = 2 ∧ h Card.ace = 2 then 21
  else if h.total = 2 ∧ h Card.ace = 1 ∧
      (h Card.jack = 1 ∨ h Card.queen = 1 ∨ h Card.king = 1 ∨ h Card.c10 = 1) then 21
  else specPromote ((Card.all.map (fun c => specFace c * h c)).sum) (h Card.ace)

lemma baseSum_eq_specBase (h : Hand) :
    h.baseSum = (Card.all.map (fun c => specFace c * h c)).sum := by
  simp [Hand.baseSum, Card.all, Card.val, specFace]

lemma promote_eq_specPromote (k v : Nat) : promote v k = specPromote v k := by
  induction k generalizing v with
  | zero => rfl
  | succ k ih =>
    by_cases hv : v + 10 ≤ 21
    · simp [promote, specPromote, hv, ih]
    · simp [promote, specPromote, hv, ih]

lemma handValue_eq_specHandValue (h : Hand) : handValue h = specHandValue h := by
  have hbase := baseSum_eq_specBase h
  unfold handValue specHandValue
  by_cases ha : h Card.ace = 0
  · simp [ha, specPromote, hbase]
  · rw [if_neg ha]
    split_ifs with h1 h2 <;>
      simp [hbase, promote_eq_specPromote]

/-! Concrete sessions used by the counterexamples and witnesses. -/

/-- A play-phase session: cash 100, bet one half, dealer showing a hard
17, the player holding the two-ace natural. -/
def wAcesStand : Wrapper :=
  { initial_cash := 100
    max_attained_cash := 100
    remaining_cash := 100
    player_bet_percent := mkRat 1 2
    deck_nums := 4
    dealer := { first_card := some Card.c10, hand := mkHand [Card.c10, Card.c7] }
    player := { first_card := some Card.ace, hand := mkHand [Card.ace, Card.ace] }
    deck := []
    discarded := Hand.empty
    turn := PlayerType.player }

/-- Same session but the player holds the three-card 21 of an ace and two
tens (two distinct ranks). -/
def wTenTenAce : Wrapper :=
  { wAcesStand with
    player := { first_card := some Card.ace
                hand := mkHand [Card.ace, Card.c10, Card.c10] } }

/-- A session at the start of a round: both hands empty, no bet placed
yet, four low cards on top of the shoe. -/
def wFresh : Wrapper :=
  { initial_cash := 100
    max_attained_cash := 100
    remaining_cash := 100
    player_bet_percent := 0
    deck_nums := 4
    dealer := Player.init
    player := Player.init
    deck := [Card.c2, Card.c3, Card.c4, Card.c5]
    discarded := Hand.empty
    turn := PlayerType.player }

/-- A session about to receive a dealer natural on the opening deal:
player gets 5 and 9, dealer gets king and ace. -/
def wDeal : Wrapper :=
  { wFresh with
    deck := [Card.c5, Card.king, Card.c9, Card.ace, Card.c2] }

/-- The ruin-override session of spec §8: cash 10 out of a historical
maximum of 100, the full bankroll bet, the player about to bust. -/
def wBust : Wrapper :=
  { initial_cash := 100
    max_attained_cash := 100
    remaining_cash := 10
    player_bet_percent := mkRat 1 1
    deck_nums := 4
    dealer := { first_card := some Card.c10, hand := mkHand [Card.c10, Card.c7] }
    player := { first_card := some Card.c10, hand := mkHand [Card.c10, Card.c5] }
    deck := [Card.king]
    discarded := Hand.empty
    turn := PlayerType.player }

/-- A mid-round solvent session with dealt hands, a non-empty discard
pile and a full single-deck shoe, used for the reset round trip. -/
def wReset : Wrapper :=
  { initial_cash := 100
    max_attained_cash := 100
    remaining_cash := 100
    player_bet_percent := mkRat 1 2
    deck_nums := 1
    dealer := { first_card := some Card.c10, hand := mkHand [Card.c10, Card.c7] }
    player := { first_card := some Card.ace, hand := mkHand [Card.ace, Card.king] }
    deck := freshDeck 1
    discarded := mkHand [Card.c2]
    turn := PlayerType.player }

/-- A play-phase session holding 5 points with two cards on top of the
shoe, used for the hit frame condition. -/
def wHit : Wrapper :=
  { initial_cash := 100
    max_attained_cash := 100
    remaining_cash := 100
    player_bet_percent := mkRat 1 2
    deck_nums := 4
    dealer := { first_card := some Card.c10, hand := mkHand [Card.c10, Card.c7] }
    player := { first_card := some Card.c2, hand := mkHand [Card.c2, Card.c3] }
    deck := [Card.c4, Card.c5]
    discarded := Hand.empty
    turn := PlayerType.player }

/-! The claims. -/

/-- C1: the source guards the natural-payout branch of `card_step` with
`player_score == 21 and len(self.player.hand) == 2`, but `len` of a
`Counter` counts distinct ranks, not cards, contradicting the source's
own comment that the branch is the player's natural blackjack.  At
`wAcesStand` the player holds a genuine two-card natural (two aces,
2 cards, value 21), yet standing resolves through the dealer comparison
and pays the single-bet 50 — not the doubled natural payout 100; at
`wTenTenAce` a three-card 21 (ace plus two tens, 3 cards) does get the
doubled natural payout 100. -/
theorem C1_natural_guard_bug :
    ((card_step wAcesStand false).map fun r =>
        (r.1.remaining_cash, r.1.max_attained_cash, r.2.reward)) =
      some (150, 150, 50) ∧
    wAcesStand.player.get_hand_value = 21 ∧
    wAcesStand.player.hand.total = 2 ∧
    pyIntMul2 wAcesStand.remaining_cash wAcesStand.player_bet_percent = 100 ∧
    ((card_step wTenTenAce false).map fun r =>
        (r.1.remaining_cash, r.2.reward)) = some (200, 100) ∧
    wTenTenAce.player.get_hand_value = 21 ∧
    wTenTenAce.player.hand.total = 3 := by decide

/-- C2: `Player.get_hand_value` returns exactly the valuation spec §4.2
describes — the two-card two-ace and ace-plus-ten-valued specials give
21, every other hand is the face-value sum with each ace promoted by 10
exactly when the running total stays at most 21 — including the four
spec examples. -/
theorem C2_hand_valuation :
    (∀ h : Hand, handValue h = specHandValue h) ∧
    handValue (mkHand [Card.ace, Card.ace]) = 21 ∧
    handValue (mkHand [Card.ace, Card.king]) = 21 ∧
    handValue (mkHand [Card.ace, Card.ace, Card.c9]) = 21 ∧
    handValue (mkHand [Card.c10, Card.c10, Card.c5]) = 25 :=
  ⟨handValue_eq_specHandValue, by decide, by decide, by decide, by decide⟩

/-- C4: whenever the opening deal of `bet_step` gives the dealer 21 and
the player not 21, the round terminates at once with
`loss = max(int(remaining_cash * bet_percent), 1)` deducted and reward
`-loss` — a single multiple of the bet — unless the deduction ruins the
player, in which case the ruin override pays `-max_attained_cash`. -/
theorem C4_dealer_natural_single_loss (w : Wrapper) (bp : ℚ)
    (c1 c2 c3 c4 : Card) (rest : List Card)
    (hdeck : w.deck = c1 :: c2 :: c3 :: c4 :: rest)
    (hd : ((w.dealer.addCard c2).addCard c4).get_hand_value = 21)
    (hp : ((w.player.addCard c1).addCard c3).get_hand_value ≠ 21) :
    ((bet_step w bp).map fun r => (r.1.remaining_cash, r.2.reward, r.2.terminated)) =
      some (w.remaining_cash - max (pyIntMul w.remaining_cash bp) 1,
            if 0 < w.remaining_cash - max (pyIntMul w.remaining_cash bp) 1
            then -(max (pyIntMul w.remaining_cash bp) 1)
            else -w.max_attained_cash,
            true) := by
  simp [bet_step, Player.draw, hdeck, hd, hp]

/-- Witness for C4 at `wDeal` with a bet of one half: the dealer is
dealt king and ace (21), the player 5 and 9 (14), and the round ends
with the single-bet loss of 50. -/
theorem C4_dealer_natural_single_loss_witness :
    wDeal.deck = Card.c5 :: Card.king :: Card.c9 :: Card.ace :: [Card.c2] ∧
    ((wDeal.dealer.addCard Card.king).addCard Card.ace).get_hand_value = 21 ∧
    ((wDeal.player.addCard Card.c5).addCard Card.c9).get_hand_value ≠ 21 ∧
    ((bet_step wDeal (mkRat 1 2)).map fun r =>
        (r.1.remaining_cash, r.2.reward, r.2.terminated)) =
      some (wDeal.remaining_cash - max (pyIntMul wDeal.remaining_cash (mkRat 1 2)) 1,
            if 0 < wDeal.remaining_cash - max (pyIntMul wDeal.remaining_cash (mkRat 1 2)) 1
            then -(max (pyIntMul wDeal.remaining_cash (mkRat 1 2)) 1)
            else -wDeal.max_attained_cash,
            true) ∧
    wDeal.remaining_cash - max (pyIntMul wDeal.remaining_cash (mkRat 1 2)) 1 = 50 :=
  ⟨rfl, by decide, by decide,
   C4_dealer_natural_single_loss wDeal (mkRat 1 2) Card.c5 Card.king Card.c9 Card.ace
     [Card.c2] rfl (by decide) (by decide),
   by decide⟩

/-- C3: at each of the three loss sites — dealer natural in `bet_step`,
player bust on a hit, dealer beating the player on a stand — when the
deduction of `loss = max(int(remaining_cash * bet_percent), 1)` drives
the remaining cash to zero or below, the returned reward is
`-max_attained_cash` instead of `-loss`. -/
theorem C3_ruin_override :
    (∀ (w : Wrapper) (bp : ℚ) (c1 c2 c3 c4 : Card) (rest : List Card),
      w.deck = c1 :: c2 :: c3 :: c4 :: rest →
      ((w.dealer.addCard c2).addCard c4).get_hand_value = 21 →
      ((w.player.addCard c1).addCard c3).get_hand_value ≠ 21 →
      w.remaining_cash - max (pyIntMul w.remaining_cash bp) 1 ≤ 0 →
      ((bet_step w bp).map fun r => (r.1.remaining_cash, r.2.reward)) =
        some (w.remaining_cash - max (pyIntMul w.remaining_cash bp) 1,
              -w.max_attained_cash)) ∧
    (∀ (w : Wrapper) (c : Card) (rest : List Card),
      w.deck = c :: rest →
      21 < (w.player.addCard c).get_hand_value →
      w.remaining_cash - max (pyIntMul w.remaining_cash w.player_bet_percent) 1 ≤ 0 →
      ((card_step w true).map fun r => (r.1.remaining_cash, r.2.reward)) =
        some (w.remaining_cash -
                max (pyIntMul w.remaining_cash w.player_bet_percent) 1,
              -w.max_attained_cash)) ∧
    (∀ (w : Wrapper) (d1 : Player) (k1 : List Card),
      ¬ (w.player.get_hand_value = 21 ∧ w.player.hand.pyLen = 2) →
      dealerLoop w.dealer w.deck = some (d1, k1) →
      d1.get_hand_value ≤ 21 →
      w.player.get_hand_value < d1.get_hand_value →
      w.remaining_cash - max (pyIntMul w.remaining_cash w.player_bet_percent) 1 ≤ 0 →
      ((card_step w false).map fun r => (r.1.remaining_cash, r.2.reward)) =
        some (w.remaining_cash -
                max (pyIntMul w.remaining_cash w.player_bet_percent) 1,
              -w.max_attained_cash)) := by
  refine ⟨?_, ?_, ?_⟩
  · intro w bp c1 c2 c3 c4 rest hdeck hd hp hruin
    simp [bet_step, Player.draw, hdeck, hd, hp, Int.not_lt.mpr hruin]
  · intro w c rest hdeck hbust hruin
    simp [card_step, Player.draw, hdeck, hbust, Int.not_lt.mpr hruin]
  · intro w d1 k1 hnat hdl hle hgt hruin
    simp [card_step, hnat, hdl, Nat.not_lt.mpr hle, hgt, Int.not_lt.mpr hruin]

/-- Witness for C3 at the spec §8 ruin example `wBust`: hitting busts the
player, the deduction of 10 zeroes the bankroll, and the reward is the
full-ruin penalty -100 rather than -10. -/
theorem C3_ruin_override_witness :
    wBust.deck = Card.king :: [] ∧
    21 < (wBust.player.addCard Card.king).get_hand_value ∧
    wBust.remaining_cash -
        max (pyIntMul wBust.remaining_cash wBust.player_bet_percent) 1 ≤ 0 ∧
    ((card_step wBust true).map fun r => (r.1.remaining_cash, r.2.reward)) =
      some (wBust.remaining_cash -
              max (pyIntMul wBust.remaining_cash wBust.player_bet_percent) 1,
            -wBust.max_attained_cash) ∧
    wBust.remaining_cash -
        max (pyIntMul wBust.remaining_cash wBust.player_bet_percent) 1 = 0 ∧
    wBust.max_attained_cash = 100 :=
  ⟨rfl, by decide, by decide,
   C3_ruin_override.2.1 wBust Card.king [] rfl (by decide) (by decide),
   by decide, by decide⟩

/-- C5 counterexample: `bet_step` performs no validation at all.  Called
with the out-of-range bet fraction 2 on `wFresh`, it does not fail: it
records the bet, deals two cards to each participant and returns the
normal non-terminal outcome — refuting the claim that an `InvalidBet`
failure is surfaced and nothing is mutated. -/
theorem C5_invalid_bet_counterexample :
    ¬ ((2 : ℚ) ≤ 1) ∧
    ((bet_step wFresh 2).map fun r =>
        (r.1.player_bet_percent, r.1.player.hand.total, r.1.dealer.hand.total,
         r.2.reward, r.2.terminated)) =
      some (2, 2, 2, 0, false) := by decide

/-- C5 amended: `bet_step` accepts every bet fraction; its only failure
mode is shoe exhaustion.  For any session and any `bet_percent`
whatsoever (in range or not) the call succeeds exactly when at least four
cards remain, and on success the session records exactly the given
fraction as the bet. -/
theorem C5_no_bet_validation (w : Wrapper) (bp : ℚ) :
    ((bet_step w bp).isSome ↔ 4 ≤ w.deck.length) ∧
    ((bet_step w bp).map fun r => r.1.player_bet_percent) =
      (if 4 ≤ w.deck.length then some bp else none) := by
  rcases hdk : w.deck with _ | ⟨a, _ | ⟨b, _ | ⟨c, _ | ⟨d, rest⟩⟩⟩⟩ <;>
    simp [bet_step, Player.draw, hdk] <;>
    split_ifs <;>
    simp

/-- C6 counterexample: no phase is tracked and no `IllegalStateTransition`
exists.  On `wFresh` — no bet placed, both hands empty, so no
non-terminal `bet_step` has happened — `card_step(take_card=true)` does
not fail: it draws a card into the player's hand and returns the normal
non-terminal outcome, refuting the claim that the call is rejected
without mutating session state. -/
theorem C6_illegal_state_counterexample :
    wFresh.player_bet_percent = 0 ∧
    wFresh.player.hand = Hand.empty ∧
    ((card_step wFresh true).map fun r =>
        (r.1.player.hand.total, r.2.reward, r.2.terminated)) =
      some (1, 0, false) := by decide

/-- C6 amended: the session records no round phase, so `card_step` can
never detect an out-of-order call: for every session state (whether or
not a bet was placed and whether or not the round already terminated),
`card_step(take_card=true)` succeeds exactly when the shoe is non-empty,
and on success the player's hand has grown by the drawn card. -/
theorem C6_no_phase_guard (w : Wrapper) :
    ((card_step w true).isSome ↔ w.deck ≠ []) ∧
    ((card_step w true).map fun r => r.1.player.hand.total) =
      (if w.deck ≠ [] then some (w.player.hand.total + 1) else none) := by
  rcases hdk : w.deck with _ | ⟨c, rest⟩
  · simp [card_step, Player.draw, hdk]
  · have htot : (w.player.hand.add c).total = w.player.hand.total + 1 :=
      total_add w.player.hand c
    simp [card_step, Player.draw, hdk] <;> split_ifs <;>
      simp [Player.addCard, htot]

/-- C7: `reset` on a solvent session drains both hands and then applies
the threshold policy — at least `deck_nums * 52 / 2` cards left keeps the
shoe (counts unchanged, only the draw order shuffled) with the discard
pile grown by both hands; fewer wipes the discard pile and installs a
fresh full shoe.  `shuffle` is the permutation the shoe's shuffle
applies. -/
theorem C7_reset_reshuffle (w : Wrapper) (shuffle : List Card → List Card)
    (hperm : ∀ l, (shuffle l).Perm l) (hsolv : 0 < w.remaining_cash) :
    (reset w shuffle).player.hand = Hand.empty ∧
    (reset w shuffle).dealer.hand = Hand.empty ∧
    (w.deck_nums * 52 / 2 ≤ w.deck.length →
      (∀ c, (reset w shuffle).discarded c =
        w.discarded c + w.dealer.hand c + w.player.hand c) ∧
      ((reset w shuffle).deck : Multiset Card) = (w.deck : Multiset Card)) ∧
    (w.deck.length < w.deck_nums * 52 / 2 →
      (reset w shuffle).discarded = Hand.empty ∧
      ((reset w shuffle).deck : Multiset Card) =
        (freshDeck w.deck_nums : Multiset Card)) := by
  have hthr : w.deck_nums * Card.all.length * 4 / 2 = w.deck_nums * 52 / 2 := by
    have : w.deck_nums * Card.all.length * 4 = w.deck_nums * 52 := by
      simp [Card.all]; ring
    rw [this]
  unfold reset
  rw [if_neg (by omega)]
  by_cases hlt : w.deck.length < w.deck_nums * 52 / 2
  · simp only [Player.reset_hand, hthr, if_pos hlt]
    refine ⟨by trivial, by trivial, fun hge => absurd hlt (by omega),
      fun _ => ⟨by trivial, Multiset.coe_eq_coe.mpr (hperm _)⟩⟩
  · simp only [Player.reset_hand, hthr, if_neg hlt]
    refine ⟨by trivial, by trivial,
      fun _ => ⟨by first | trivial | exact fun c => rfl,
                Multiset.coe_eq_coe.mpr (hperm _)⟩,
      fun h => absurd h hlt⟩

/-- Witness for C7 at `wReset` with the identity shuffle: the single-deck
shoe still holds all 52 cards, so the discard pile absorbs both dealt
hands on top of the prior discard and the shoe's contents are
untouched. -/
theorem C7_reset_reshuffle_witness :
    0 < wReset.remaining_cash ∧
    wReset.deck_nums * 52 / 2 ≤ wReset.deck.length ∧
    ((∀ c, (reset wReset id).discarded c =
        wReset.discarded c + wReset.dealer.hand c + wReset.player.hand c) ∧
      ((reset wReset id).deck : Multiset Card) = (wReset.deck : Multiset Card)) :=
  ⟨by decide, by decide,
   (C7_reset_reshuffle wReset id (fun l => List.Perm.refl l) (by decide)).2.2.1
     (by decide)⟩

/-- C8 counterexample: a drawn card need not raise the dealer's hand
value at all.  A dealer holding ace and 5 (a soft 16, below 17, so the
loop draws) who draws a king still holds 16 — the ace demotes from 11 to
1 — so the claim that every drawn card raises the dealer's hand value by
at least 1 is false; the concrete loop run below draws that king and then
a 2 before stopping at 18. -/
theorem C8_draw_counterexample :
    (⟨some Card.ace, mkHand [Card.ace, Card.c5]⟩ : Player).get_hand_value = 16 ∧
    ((⟨some Card.ace, mkHand [Card.ace, Card.c5]⟩ : Player).addCard
        Card.king).get_hand_value = 16 ∧
    ((dealerLoop ⟨some Card.ace, mkHand [Card.ace, Card.c5]⟩
        [Card.king, Card.c2]).map fun r =>
          (r.1.get_hand_value, r.1.hand Card.king, r.1.hand.total, r.2)) =
      some (18, 1, 4, []) := by
  decide

/-- C8 amended: the dealer draws exactly while its hand value is below
17 — a dealer already at 17 or more draws nothing, and any hand the loop
stops at is worth at least 17 — and the loop always terminates without
exhausting a shoe of at least 17 cards, because each drawn card raises
the aces-as-one base sum (not necessarily the hand value itself) by at
least 1. -/
theorem C8_dealer_policy :
    (∀ (d : Player) (deck : List Card),
      17 ≤ d.get_hand_value → dealerLoop d deck = some (d, deck)) ∧
    (∀ (d : Player) (deck : List Card) (r : Player × List Card),
      dealerLoop d deck = some r → 17 ≤ r.1.get_hand_value) ∧
    (∀ (d : Player) (deck : List Card),
      17 ≤ deck.length → (dealerLoop d deck).isSome = true) :=
  ⟨fun d deck hv => dealerLoop_of_ge17 d deck hv,
   fun d deck r h => dealerLoop_result_ge17 deck d r h,
   fun d deck hlen =>
     dealerLoop_isSome deck d (Nat.le_trans hlen (Nat.le_add_left _ _))⟩

/-- Witness for C8: a dealer on a hard 17 draws nothing from a non-empty
shoe; the empty-shoe run that stopped at that same 17 indeed ended at 17
or more; and a dealer on a soft 16 facing a full 52-card shoe completes
the loop. -/
theorem C8_dealer_policy_witness :
    17 ≤ (⟨some Card.c10, mkHand [Card.c10, Card.c7]⟩ : Player).get_hand_value ∧
    dealerLoop ⟨some Card.c10, mkHand [Card.c10, Card.c7]⟩ [Card.c2] =
      some (⟨some Card.c10, mkHand [Card.c10, Card.c7]⟩, [Card.c2]) ∧
    17 ≤ ((⟨some Card.c10, mkHand [Card.c10, Card.c7]⟩ : Player), ([] : List Card)).1.get_hand_value ∧
    17 ≤ (freshDeck 1).length ∧
    (dealerLoop ⟨some Card.ace, mkHand [Card.ace, Card.c5]⟩ (freshDeck 1)).isSome = true :=
  ⟨by decide,
   C8_dealer_policy.1 ⟨some Card.c10, mkHand [Card.c10, Card.c7]⟩ [Card.c2] (by decide),
   C8_dealer_policy.2.1 ⟨some Card.c10, mkHand [Card.c10, Card.c7]⟩ []
     (⟨some Card.c10, mkHand [Card.c10, Card.c7]⟩, []) (by decide),
   by decide,
   C8_dealer_policy.2.2 ⟨some Card.ace, mkHand [Card.ace, Card.c5]⟩ (freshDeck 1)
     (by decide)⟩

/-- C9: `max_attained_cash` never decreases: every successful `bet_step`
and `card_step` yields a session whose `max_attained_cash` is at least
the old one (it moves only in the win branches, to the maximum of itself
and the new bankroll), and `reset` of a solvent session leaves it
untouched. -/
theorem C9_max_cash_monotone :
    (∀ (w : Wrapper) (bp : ℚ) (r : Wrapper × ActionOutcome),
      bet_step w bp = some r →
      w.max_attained_cash ≤ r.1.max_attained_cash) ∧
    (∀ (w : Wrapper) (t : Bool) (r : Wrapper × ActionOutcome),
      card_step w t = some r →
      w.max_attained_cash ≤ r.1.max_attained_cash) ∧
    (∀ (w : Wrapper) (shuffle : List Card → List Card),
      0 < w.remaining_cash →
      (reset w shuffle).max_attained_cash = w.max_attained_cash) := by
  refine ⟨?_, ?_, ?_⟩
  · intro w bp r h
    rcases hdk : w.deck with _ | ⟨a, _ | ⟨b, _ | ⟨c, _ | ⟨d, rest⟩⟩⟩⟩ <;>
      simp [bet_step, Player.draw, hdk] at h <;>
      split_ifs at h <;>
      first
        | (injection h with h2; subst h2; simp)
        | (subst h; simp)
  · intro w t r h
    cases t
    · by_cases hnat : w.player.get_hand_value = 21 ∧ w.player.hand.pyLen = 2
      · simp [card_step, hnat] at h
        subst h
        simp [le_max_left]
      · rcases hdl : dealerLoop w.dealer w.deck with _ | ⟨d1, k1⟩ <;>
          simp [card_step, hnat, hdl] at h
        split_ifs at h <;>
          first
            | (injection h with h2; subst h2; simp [le_max_left])
            | (subst h; simp [le_max_left])
    · rcases hdk : w.deck with _ | ⟨c, rest⟩ <;>
        simp [card_step, Player.draw, hdk] at h <;>
        split_ifs at h <;>
        first
          | (injection h with h2; subst h2; simp [le_max_left])
          | (subst h; simp [le_max_left])
  · intro w shuffle hsolv
    unfold reset
    rw [if_neg (by omega)]
    simp only [Player.reset_hand]
    split_ifs <;> rfl

/-- Witness for C9 at the solvent session `wReset`: resetting leaves the
historical maximum at its old value 100. -/
theorem C9_max_cash_monotone_witness :
    0 < wReset.remaining_cash ∧
    (reset wReset id).max_attained_cash = wReset.max_attained_cash :=
  ⟨by decide, C9_max_cash_monotone.2.2 wReset id (by decide)⟩

/-- C10: a hit whose drawn card keeps the player at or below 21 changes
nothing but the player's hand and the shoe: `card_step(take_card=true)`
returns exactly the session with the drawn card added to the player's
hand and removed from the shoe (cash fields, bet, discard pile, dealer
untouched), with reward 0 and not terminated. -/
theorem C10_hit_frame (w : Wrapper) (c : Card) (rest : List Card)
    (hdeck : w.deck = c :: rest)
    (hval : (w.player.addCard c).get_hand_value ≤ 21) :
    card_step w true =
      some ({ w with player := w.player.addCard c, deck := rest },
            { new_state := get_state { w with player := w.player.addCard c, deck := rest }
              reward := 0
              terminated := false }) := by
  simp [card_step, Player.draw, hdeck, Nat.not_lt.mpr hval]

/-- Witness for C10 at `wHit`: drawing the 4 on top of the shoe lifts the
player to 9 points and changes nothing else. -/
theorem C10_hit_frame_witness :
    wHit.deck = Card.c4 :: [Card.c5] ∧
    (wHit.player.addCard Card.c4).get_hand_value ≤ 21 ∧
    card_step wHit true =
      some ({ wHit with player := wHit.player.addCard Card.c4, deck := [Card.c5] },
            { new_state :=
                get_state { wHit with player := wHit.player.addCard Card.c4
                                      deck := [Card.c5] }
              reward := 0
              terminated := false }) :=
  ⟨rfl, by decide, C10_hit_frame wHit Card.c4 [Card.c5] rfl (by decide)⟩

end Blackjack
